import Mathlib

/-!
Shallow embedding of the event-routing core of `src/binance_streamer.py`
(`BinanceDataStreamer`): the per-category counters, the five event
handlers, the start/stop subscription lifecycle and the status report.
Python dictionaries are modelled as insertion-ordered association lists,
log output as a list of structured log records, and the external catalog
write as a recorded call whose outcome is supplied by a boolean oracle
(the handlers have no try/except around the write, so a failing write
makes the handler raise; the `raised` flag records that).
-/

set_option autoImplicit false

namespace DataCollector

/-- Book type enum (`nautilus_trader.model.enums.BookType`); the streamer
fixes `self.book_type = BookType.L2_MBP`. -/
inductive BookType where
  | L1_MBP
  | L2_MBP
  | L3_MBO
deriving DecidableEq, Repr

/-- Catalog write mode enum (`CatalogWriteMode`); the streamer only ever
passes `APPEND` explicitly. -/
inductive CatalogWriteMode where
  | OVERWRITE
  | APPEND
  | PREPEND
  | NEWFILE
deriving DecidableEq, Repr

/-- A resolved bar type (`BarType`); `toStr` is Python `str(bar_type)`,
the normalized string form used as the key of `bar_counts` in `on_bar`. -/
structure BarType where
  toStr : String
deriving DecidableEq, Repr

/-- Quote tick event: fields read by `on_quote_tick`'s log line. -/
structure QuoteTick where
  instrument_id : String
  bid_price : Int
  ask_price : Int
deriving DecidableEq, Repr

/-- Trade tick event: fields read by `on_trade_tick`'s log line. -/
structure TradeTick where
  instrument_id : String
  price : Int
  size : Int
deriving DecidableEq, Repr

/-- Order book deltas event: field read by `on_order_book_deltas`. -/
structure OrderBookDeltas where
  instrument_id : String
deriving DecidableEq, Repr

/-- Bar event: fields read by `on_bar`. -/
structure Bar where
  bar_type : BarType
  openP : Int
  highP : Int
  lowP : Int
  closeP : Int
  volume : Int
deriving DecidableEq, Repr

/-- Instrument metadata event: field read by `on_instrument`. -/
structure Instrument where
  id : String
deriving DecidableEq, Repr

/-- The closed tagged union of events routed by the streamer, one variant
per `on_<event>` handler. -/
inductive MarketEvent where
  | quote (tick : QuoteTick)
  | trade (tick : TradeTick)
  | deltas (d : OrderBookDeltas)
  | bar (b : Bar)
  | instrument (i : Instrument)
deriving DecidableEq, Repr

/-- Structured log records: one variant per distinct `self.log` call site
of the streamer that the claims are about. -/
inductive LogRecord where
  | parseError (raw : String)
  | quoteLog (n : Nat) (instId : String) (bid ask : Int)
  | tradeLog (n : Nat) (instId : String) (price size : Int)
  | deltasLog (n : Nat) (instId : String)
  | barLog (n : Nat) (barType : String) (o h l c v : Int)
  | statusHeader (now : Nat)
  | statusQuoteTotal (n : Nat)
  | statusTradeTotal (n : Nat)
  | statusBarTotal (barType : String) (n : Nat)
  | statusDataTypes (types : List String)
  | statusDataTypeWritten (t : String)
  | statusInventoryError
deriving DecidableEq, Repr

/-- One `data_catalog.write_data(batch, mode=...)` call: the batch and the
mode argument (`none` when the call omits `mode`, i.e. the library default
is used, as in `on_instrument`). -/
structure WriteCall where
  batch : List MarketEvent
  mode : Option CatalogWriteMode
deriving DecidableEq, Repr

/-- The mutable counter fields of `BinanceDataStreamer` set up in
`__init__`: `quote_count`, `trade_count`, `deltas_count`, `book_count`
and the `bar_counts` dict (insertion-ordered association list, as a
Python dict). -/
structure StreamerState where
  quote_count : Nat
  trade_count : Nat
  deltas_count : Nat
  book_count : Nat
  bar_counts : List (String × Nat)
deriving DecidableEq, Repr

/-- Python dict lookup `d.get(k)` on an insertion-ordered assoc list. -/
def dictGet (d : List (String × Nat)) (k : String) : Option Nat :=
  match d with
  | [] => none
  | (k', v) :: rest => if k' = k then some v else dictGet rest k

/-- Python dict assignment `d[k] = v`: updates the existing entry in
place, else appends a new entry at the end. -/
def dictSet (d : List (String × Nat)) (k : String) (v : Nat) : List (String × Nat) :=
  match d with
  | [] => [(k, v)]
  | (k', v') :: rest =>
      if k' = k then (k', v) :: rest else (k', v') :: dictSet rest k v

/-- `d.get(k, 0)` as used by `on_bar`. -/
def dictGetD (d : List (String × Nat)) (k : String) : Nat :=
  (dictGet d k).getD 0

/-- Result of running one event handler: the streamer state after the
handler, the log records it emitted, the catalog write calls it issued,
and whether an uncaught exception propagated out of the handler. -/
structure HandlerResult where
  state : StreamerState
  logs : List LogRecord
  writes : List WriteCall
  raised : Bool
deriving DecidableEq, Repr

/-- `on_quote_tick`: increments `quote_count`, logs every 100th quote,
then writes the tick as a single-element batch in APPEND mode. There is
no try/except: a failing write (`writeOk = false`) raises after the
counter was already incremented. -/
def on_quote_tick (writeOk : Bool) (s : StreamerState) (tick : QuoteTick) :
    HandlerResult :=
  let n := s.quote_count + 1
  { state := { s with quote_count := n }
    logs := if n % 100 = 0 then
        [.quoteLog n tick.instrument_id tick.bid_price tick.ask_price] else []
    writes := [⟨[.quote tick], some .APPEND⟩]
    raised := !writeOk }

/-- `on_trade_tick`: increments `trade_count`, logs every 10th trade,
then writes the tick in APPEND mode; no try/except around the write. -/
def on_trade_tick (writeOk : Bool) (s : StreamerState) (tick : TradeTick) :
    HandlerResult :=
  let n := s.trade_count + 1
  { state := { s with trade_count := n }
    logs := if n % 10 = 0 then
        [.tradeLog n tick.instrument_id tick.price tick.size] else []
    writes := [⟨[.trade tick], some .APPEND⟩]
    raised := !writeOk }

/-- `on_order_book_deltas`: increments `deltas_count`, logs every 100th
batch, then writes the deltas in APPEND mode; no try/except. -/
def on_order_book_deltas (writeOk : Bool) (s : StreamerState)
    (d : OrderBookDeltas) : HandlerResult :=
  let n := s.deltas_count + 1
  { state := { s with deltas_count := n }
    logs := if n % 100 = 0 then [.deltasLog n d.instrument_id] else []
    writes := [⟨[.deltas d], some .APPEND⟩]
    raised := !writeOk }

/-- `on_bar`: keys `bar_counts` by `str(bar.bar_type)` with
`get(key, 0) + 1` (so a missing key is created at 1), logs every bar,
then writes the bar in APPEND mode; no try/except. -/
def on_bar (writeOk : Bool) (s : StreamerState) (b : Bar) : HandlerResult :=
  let key := b.bar_type.toStr
  let n := dictGetD s.bar_counts key + 1
  { state := { s with bar_counts := dictSet s.bar_counts key n }
    logs := [.barLog n key b.openP b.highP b.lowP b.closeP b.volume]
    writes := [⟨[.bar b], some .APPEND⟩]
    raised := !writeOk }

/-- `on_instrument`: logs the instrument id and writes the instrument as
a single-element batch with no `mode` argument (library default mode);
touches no counter; no try/except. -/
def on_instrument (writeOk : Bool) (s : StreamerState) (i : Instrument) :
    HandlerResult :=
  { state := s
    logs := []
    writes := [⟨[.instrument i], none⟩]
    raised := !writeOk }

/-- Dispatch of one routed event to the matching handler. -/
def route (writeOk : Bool) (s : StreamerState) (e : MarketEvent) :
    HandlerResult :=
  match e with
  | .quote tick => on_quote_tick writeOk s tick
  | .trade tick => on_trade_tick writeOk s tick
  | .deltas d => on_order_book_deltas writeOk s d
  | .bar b => on_bar writeOk s b
  | .instrument i => on_instrument writeOk s i

/-- Routing a sequence of events delivered by the feed, every catalog
write succeeding; accumulates all log records and write calls in order. -/
def routeAll : StreamerState → List MarketEvent →
    StreamerState × List LogRecord × List WriteCall
  | s, [] => (s, [], [])
  | s, e :: rest =>
      let r := route true s e
      let res := routeAll r.state rest
      (res.1, r.logs ++ res.2.1, r.writes ++ res.2.2)

/-- The zeroed counter state that `__init__` establishes before any event
is routed (`quote_count = trade_count = deltas_count = book_count = 0`),
with no bar type configured. -/
def freshState : StreamerState :=
  { quote_count := 0, trade_count := 0, deltas_count := 0, book_count := 0
    bar_counts := [] }

/-- The resolver loops of `__init__`: for each raw string, try the
external parse (`InstrumentId.from_str` / `BarType.from_str`, modelled as
`parse : String → Option α`); append the handle on success, log an error
and continue on failure. Returns the resolved handles in input order and
the error log records. -/
def resolveIds {α : Type} (parse : String → Option α) :
    List String → List α × List LogRecord
  | [] => ([], [])
  | raw :: rest =>
      let res := resolveIds parse rest
      match parse raw with
      | some h => (h :: res.1, res.2)
      | none => (res.1, .parseError raw :: res.2)

/-- One `self.subscribe_*` call issued by `on_start`, with the arguments
the streamer passes. -/
inductive SubCall where
  | instrument (id : String)
  | quoteTicks (id : String)
  | tradeTicks (id : String)
  | bookDeltas (id : String) (bookType : BookType) (depth : Nat)
  | bars (bt : String)
deriving DecidableEq, Repr

/-- One `self.unsubscribe_*` call issued by `on_stop`, with the arguments
the streamer passes. -/
inductive UnsubCall where
  | quoteTicks (id : String)
  | tradeTicks (id : String)
  | bookDeltas (id : String) (bookType : BookType)
  | bars (bt : String)
deriving DecidableEq, Repr

/-- A subscription entry identified by (category, key): the roster unit
that a subscribe activates and the matching unsubscribe deactivates. -/
inductive SubKey where
  | instrument (id : String)
  | quotes (id : String)
  | trades (id : String)
  | deltas (id : String)
  | bars (bt : String)
deriving DecidableEq, Repr

/-- The subscription entry a subscribe call targets. -/
def SubCall.key : SubCall → SubKey
  | .instrument id => .instrument id
  | .quoteTicks id => .quotes id
  | .tradeTicks id => .trades id
  | .bookDeltas id _ _ => .deltas id
  | .bars bt => .bars bt

/-- The subscription entry an unsubscribe call targets. -/
def UnsubCall.key : UnsubCall → SubKey
  | .quoteTicks id => .quotes id
  | .tradeTicks id => .trades id
  | .bookDeltas id _ => .deltas id
  | .bars bt => .bars bt

/-- The first `on_start` loop: for each resolved instrument id, in
order, `subscribe_instrument`, `subscribe_quote_ticks`,
`subscribe_trade_ticks`, `subscribe_order_book_deltas(book_type =
self.book_type = L2_MBP, depth = 0)`. -/
def startCallsIds : List String → List SubCall
  | [] => []
  | id :: ids =>
      .instrument id :: .quoteTicks id :: .tradeTicks id ::
        .bookDeltas id .L2_MBP 0 :: startCallsIds ids

/-- The second `on_start` loop: `subscribe_bars` for each resolved bar
type. -/
def startCallsBars : List String → List SubCall
  | [] => []
  | bt :: bts => .bars bt :: startCallsBars bts

/-- The subscribe calls `on_start` makes, in program order (the
instrument loop, then the bar loop). -/
def on_start_calls (ids bts : List String) : List SubCall :=
  startCallsIds ids ++ startCallsBars bts

/-- The first `on_stop` loop: for each instrument id,
`unsubscribe_quote_ticks`, `unsubscribe_trade_ticks`,
`unsubscribe_order_book_deltas(book_type)`. -/
def stopCallsIds : List String → List UnsubCall
  | [] => []
  | id :: ids =>
      .quoteTicks id :: .tradeTicks id :: .bookDeltas id .L2_MBP ::
        stopCallsIds ids

/-- The second `on_stop` loop: `unsubscribe_bars` for each bar type. -/
def stopCallsBars : List String → List UnsubCall
  | [] => []
  | bt :: bts => .bars bt :: stopCallsBars bts

/-- The unsubscribe calls `on_stop` makes, in program order (the
instrument loop, then the bar loop). -/
def on_stop_calls (ids bts : List String) : List UnsubCall :=
  stopCallsIds ids ++ stopCallsBars bts

/-- Running a sequence of subscribe calls against a failure oracle:
each call is issued in order; `on_start` has no try/except, so the first
failing call raises and the remaining calls are never issued. Returns
the calls actually issued and whether an exception propagated. -/
def issueCalls (fails : SubCall → Bool) : List SubCall → List SubCall × Bool
  | [] => ([], false)
  | c :: rest =>
      if fails c then ([c], true)
      else
        let res := issueCalls fails rest
        (c :: res.1, res.2)

/-- The set of entries activated by `on_start` (every subscribe call
succeeding). -/
def activeAfterStart (ids bts : List String) : List SubKey :=
  (on_start_calls ids bts).map SubCall.key

/-- Whether a subscription entry is NOT targeted by any unsubscribe call
of `on_stop` (and thus stays active across an `on_stop` run). -/
def keptAtStop (ids bts : List String) (k : SubKey) : Bool :=
  !decide (k ∈ (on_stop_calls ids bts).map UnsubCall.key)

/-- The effect of one `on_stop` run on the active roster: every entry
targeted by one of its unsubscribe calls leaves the active set. -/
def applyStop (ids bts : List String) (active : List SubKey) : List SubKey :=
  active.filter (keptAtStop ids bts)

/-- `_log_status`: logs a header with the current wall-clock time, the
quote and trade totals, one line per `bar_counts` entry, then queries
`data_catalog.list_data_types()` inside try/except — on success it logs
the type list and one line per type, on failure an error record. Reads
counters only; returns the (unchanged) state together with the report. -/
def log_status (s : StreamerState) (now : Nat)
    (inv : Except Unit (List String)) : StreamerState × List LogRecord :=
  (s,
    .statusHeader now :: .statusQuoteTotal s.quote_count ::
      .statusTradeTotal s.trade_count ::
        (s.bar_counts.map (fun kv => .statusBarTotal kv.1 kv.2) ++
          match inv with
          | .ok types =>
              .statusDataTypes types :: types.map .statusDataTypeWritten
          | .error _ => [.statusInventoryError]))

/-- Category predicate: is this event a quote tick? -/
def isQuoteEvent : MarketEvent → Bool
  | .quote _ => true
  | _ => false

/-- Category predicate: is this event a trade tick? -/
def isTradeEvent : MarketEvent → Bool
  | .trade _ => true
  | _ => false

/-- Category predicate: is this event an order-book deltas batch? -/
def isDeltasEvent : MarketEvent → Bool
  | .deltas _ => true
  | _ => false

/-- Category predicate: is this event a bar whose bar-type string is `k`? -/
def isBarOfType (k : String) : MarketEvent → Bool
  | .bar b => b.bar_type.toStr = k
  | _ => false

/-- Modelled from the spec: the write mode the spec prescribes per
category — append mode for quote/trade/delta/bar, the write API's
default (overwrite-or-insert) mode for instrument metadata, the latter
rendered as an omitted `mode` argument. Used only to compare the
router's write calls against the spec's words. -/
def specWriteMode : MarketEvent → Option CatalogWriteMode
  | .instrument _ => none
  | _ => some .APPEND

/-- Every status-report line except the wall-clock header. -/
def nonHeader : LogRecord → Bool
  | .statusHeader _ => false
  | _ => true

theorem dictGet_dictSet_same (d : List (String × Nat)) (k : String) (v : Nat) :
    dictGet (dictSet d k v) k = some v := by
  induction d with
  | nil => simp [dictGet, dictSet]
  | cons kv rest ih =>
      by_cases h : kv.1 = k <;> simp [dictGet, dictSet, h, ih]

theorem dictGet_dictSet_ne (d : List (String × Nat)) (k k' : String) (v : Nat)
    (h : k ≠ k') : dictGet (dictSet d k v) k' = dictGet d k' := by
  induction d with
  | nil => simp [dictGet, dictSet, h]
  | cons kv rest ih =>
      by_cases h1 : kv.1 = k <;> by_cases h2 : kv.1 = k' <;>
        simp_all [dictGet, dictSet]

theorem routeAll_quote_count (trace : List MarketEvent) (s : StreamerState) :
    (routeAll s trace).1.quote_count =
      s.quote_count + trace.countP isQuoteEvent := by
  induction trace generalizing s with
  | nil => simp [routeAll]
  | cons e rest ih =>
      cases e <;>
        simp [routeAll, route, on_quote_tick, on_trade_tick,
          on_order_book_deltas, on_bar, on_instrument, ih,
          List.countP_cons, isQuoteEvent]
      omega

theorem routeAll_trade_count (trace : List MarketEvent) (s : StreamerState) :
    (routeAll s trace).1.trade_count =
      s.trade_count + trace.countP isTradeEvent := by
  induction trace generalizing s with
  | nil => simp [routeAll]
  | cons e rest ih =>
      cases e <;>
        simp [routeAll, route, on_quote_tick, on_trade_tick,
          on_order_book_deltas, on_bar, on_instrument, ih,
          List.countP_cons, isTradeEvent]
      omega

theorem routeAll_deltas_count (trace : List MarketEvent) (s : StreamerState) :
    (routeAll s trace).1.deltas_count =
      s.deltas_count + trace.countP isDeltasEvent := by
  induction trace generalizing s with
  | nil => simp [routeAll]
  | cons e rest ih =>
      cases e <;>
        simp [routeAll, route, on_quote_tick, on_trade_tick,
          on_order_book_deltas, on_bar, on_instrument, ih,
          List.countP_cons, isDeltasEvent]
      omega

theorem dictGetD_dictSet (d : List (String × Nat)) (k k' : String) (v : Nat) :
    dictGetD (dictSet d k v) k' = if k = k' then v else dictGetD d k' := by
  by_cases h : k = k'
  · subst h
    simp [dictGetD, dictGet_dictSet_same]
  · simp [dictGetD, dictGet_dictSet_ne _ _ _ _ h, h]

theorem routeAll_bar_count (trace : List MarketEvent) (s : StreamerState)
    (k : String) :
    dictGetD (routeAll s trace).1.bar_counts k =
      dictGetD s.bar_counts k + trace.countP (isBarOfType k) := by
  induction trace generalizing s with
  | nil => simp [routeAll]
  | cons e rest ih =>
      cases e with
      | bar b =>
          simp only [routeAll, route, on_bar]
          rw [ih]
          simp only [List.countP_cons, dictGetD_dictSet]
          by_cases hk : b.bar_type.toStr = k
          · simp [isBarOfType, hk]
            omega
          · simp [isBarOfType, hk]
      | quote tick =>
          simp only [routeAll, route, on_quote_tick]
          rw [ih]
          simp [List.countP_cons, isBarOfType]
      | trade tick =>
          simp only [routeAll, route, on_trade_tick]
          rw [ih]
          simp [List.countP_cons, isBarOfType]
      | deltas d =>
          simp only [routeAll, route, on_order_book_deltas]
          rw [ih]
          simp [List.countP_cons, isBarOfType]
      | instrument i =>
          simp only [routeAll, route, on_instrument]
          rw [ih]
          simp [List.countP_cons, isBarOfType]

theorem issueCalls_all_ok (cs : List SubCall) :
    issueCalls (fun _ => false) cs = (cs, false) := by
  induction cs with
  | nil => rfl
  | cons c rest ih => simp [issueCalls, ih]

theorem mem_stopCallsIds_quotes (ids : List String) (id : String)
    (h : id ∈ ids) :
    SubKey.quotes id ∈ (stopCallsIds ids).map UnsubCall.key := by
  induction ids with
  | nil => cases h
  | cons i rest ih =>
      rcases List.mem_cons.mp h with h1 | h2
      · subst h1
        simp [stopCallsIds, UnsubCall.key]
      · simp only [stopCallsIds, List.map_cons, UnsubCall.key,
          List.mem_cons]
        exact Or.inr (Or.inr (Or.inr (ih h2)))

theorem mem_stopCallsIds_trades (ids : List String) (id : String)
    (h : id ∈ ids) :
    SubKey.trades id ∈ (stopCallsIds ids).map UnsubCall.key := by
  induction ids with
  | nil => cases h
  | cons i rest ih =>
      rcases List.mem_cons.mp h with h1 | h2
      · subst h1
        simp [stopCallsIds, UnsubCall.key]
      · simp only [stopCallsIds, List.map_cons, UnsubCall.key,
          List.mem_cons]
        exact Or.inr (Or.inr (Or.inr (ih h2)))

theorem mem_stopCallsIds_deltas (ids : List String) (id : String)
    (h : id ∈ ids) :
    SubKey.deltas id ∈ (stopCallsIds ids).map UnsubCall.key := by
  induction ids with
  | nil => cases h
  | cons i rest ih =>
      rcases List.mem_cons.mp h with h1 | h2
      · subst h1
        simp [stopCallsIds, UnsubCall.key]
      · simp only [stopCallsIds, List.map_cons, UnsubCall.key,
          List.mem_cons]
        exact Or.inr (Or.inr (Or.inr (ih h2)))

theorem mem_stopCallsBars_bars (bts : List String) (bt : String)
    (h : bt ∈ bts) :
    SubKey.bars bt ∈ (stopCallsBars bts).map UnsubCall.key := by
  induction bts with
  | nil => cases h
  | cons b rest ih =>
      rcases List.mem_cons.mp h with h1 | h2
      · subst h1
        simp [stopCallsBars, UnsubCall.key]
      · simp only [stopCallsBars, List.map_cons, UnsubCall.key,
          List.mem_cons]
        exact Or.inr (ih h2)

theorem stop_keys_no_instrument (ids bts : List String) (id : String) :
    SubKey.instrument id ∉ (on_stop_calls ids bts).map UnsubCall.key := by
  intro h
  obtain ⟨u, _, hk⟩ := List.mem_map.mp h
  cases u <;> simp [UnsubCall.key] at hk

theorem filter_cons_true {α : Type} (p : α → Bool) (a : α) (l : List α)
    (h : p a = true) : (a :: l).filter p = a :: l.filter p := by
  simp [List.filter_cons, h]

theorem filter_cons_false {α : Type} (p : α → Bool) (a : α) (l : List α)
    (h : p a = false) : (a :: l).filter p = l.filter p := by
  simp [List.filter_cons, h]

theorem stop_removes_startIds (ids bts : List String) (ids' : List String)
    (hsub : ∀ id, id ∈ ids' → id ∈ ids) :
    ((startCallsIds ids').map SubCall.key).filter (keptAtStop ids bts) =
      ids'.map SubKey.instrument := by
  induction ids' with
  | nil => simp [startCallsIds]
  | cons id rest ih =>
      have hid : id ∈ ids := hsub id (List.mem_cons_self _ _)
      have h1 := stop_keys_no_instrument ids bts id
      have h2 : SubKey.quotes id ∈ (on_stop_calls ids bts).map UnsubCall.key := by
        rw [on_stop_calls, List.map_append]
        exact List.mem_append.mpr (Or.inl (mem_stopCallsIds_quotes ids id hid))
      have h3 : SubKey.trades id ∈ (on_stop_calls ids bts).map UnsubCall.key := by
        rw [on_stop_calls, List.map_append]
        exact List.mem_append.mpr (Or.inl (mem_stopCallsIds_trades ids id hid))
      have h4 : SubKey.deltas id ∈ (on_stop_calls ids bts).map UnsubCall.key := by
        rw [on_stop_calls, List.map_append]
        exact List.mem_append.mpr (Or.inl (mem_stopCallsIds_deltas ids id hid))
      have ih2 := ih (fun i hi => hsub i (List.mem_cons_of_mem _ hi))
      have e1 : keptAtStop ids bts (SubKey.instrument id) = true := by
        simp only [keptAtStop]
        rw [decide_eq_false h1]
        rfl
      have e2 : keptAtStop ids bts (SubKey.quotes id) = false := by
        simp only [keptAtStop]
        rw [decide_eq_true h2]
        rfl
      have e3 : keptAtStop ids bts (SubKey.trades id) = false := by
        simp only [keptAtStop]
        rw [decide_eq_true h3]
        rfl
      have e4 : keptAtStop ids bts (SubKey.deltas id) = false := by
        simp only [keptAtStop]
        rw [decide_eq_true h4]
        rfl
      simp only [startCallsIds, List.map_cons, SubCall.key]
      rw [filter_cons_true (keptAtStop ids bts) _ _ e1,
        filter_cons_false (keptAtStop ids bts) _ _ e2,
        filter_cons_false (keptAtStop ids bts) _ _ e3,
        filter_cons_false (keptAtStop ids bts) _ _ e4, ih2]

theorem stop_removes_startBars (ids bts : List String) (bts' : List String)
    (hsub : ∀ bt, bt ∈ bts' → bt ∈ bts) :
    ((startCallsBars bts').map SubCall.key).filter (keptAtStop ids bts) =
      [] := by
  induction bts' with
  | nil => simp [startCallsBars]
  | cons bt rest ih =>
      have hbt : bt ∈ bts := hsub bt (List.mem_cons_self _ _)
      have h1 : SubKey.bars bt ∈ (on_stop_calls ids bts).map UnsubCall.key := by
        rw [on_stop_calls, List.map_append]
        exact List.mem_append.mpr (Or.inr (mem_stopCallsBars_bars bts bt hbt))
      have ih2 := ih (fun b hb => hsub b (List.mem_cons_of_mem _ hb))
      have e1 : keptAtStop ids bts (SubKey.bars bt) = false := by
        simp only [keptAtStop]
        rw [decide_eq_true h1]
        rfl
      simp only [startCallsBars, List.map_cons, SubCall.key]
      rw [filter_cons_false (keptAtStop ids bts) _ _ e1, ih2]

theorem filter_idem {α : Type} (p : α → Bool) (l : List α) :
    (l.filter p).filter p = l.filter p :=
  List.filter_eq_self.mpr (fun _ ha => (List.mem_filter.mp ha).2)

/-- The instrument id a `subscribe_instrument` call carries, if any. -/
def subInstrumentArg : SubCall → Option String
  | .instrument id => some id
  | _ => none

/-- The instrument id a `subscribe_quote_ticks` call carries, if any. -/
def subQuoteArg : SubCall → Option String
  | .quoteTicks id => some id
  | _ => none

/-- The instrument id a `subscribe_trade_ticks` call carries, if any. -/
def subTradeArg : SubCall → Option String
  | .tradeTicks id => some id
  | _ => none

/-- The full argument triple of a `subscribe_order_book_deltas` call. -/
def subDeltasArg : SubCall → Option (String × BookType × Nat)
  | .bookDeltas id b d => some (id, b, d)
  | _ => none

/-- The bar type a `subscribe_bars` call carries, if any. -/
def subBarsArg : SubCall → Option String
  | .bars bt => some bt
  | _ => none

theorem fmIds_inst (ids : List String) :
    (startCallsIds ids).filterMap subInstrumentArg = ids := by
  induction ids with
  | nil => rfl
  | cons id rest ih =>
      simp [startCallsIds, List.filterMap_cons, subInstrumentArg, ih]

theorem fmIds_quote (ids : List String) :
    (startCallsIds ids).filterMap subQuoteArg = ids := by
  induction ids with
  | nil => rfl
  | cons id rest ih =>
      simp [startCallsIds, List.filterMap_cons, subQuoteArg, ih]

theorem fmIds_trade (ids : List String) :
    (startCallsIds ids).filterMap subTradeArg = ids := by
  induction ids with
  | nil => rfl
  | cons id rest ih =>
      simp [startCallsIds, List.filterMap_cons, subTradeArg, ih]

theorem fmIds_deltas (ids : List String) :
    (startCallsIds ids).filterMap subDeltasArg =
      ids.map (fun id => (id, BookType.L2_MBP, 0)) := by
  induction ids with
  | nil => rfl
  | cons id rest ih =>
      simp [startCallsIds, List.filterMap_cons, subDeltasArg, ih]

theorem fmIds_bars (ids : List String) :
    (startCallsIds ids).filterMap subBarsArg = [] := by
  induction ids with
  | nil => rfl
  | cons id rest ih =>
      simp [startCallsIds, List.filterMap_cons, subBarsArg, ih]

theorem fmBars_inst (bts : List String) :
    (startCallsBars bts).filterMap subInstrumentArg = [] := by
  induction bts with
  | nil => rfl
  | cons bt rest ih =>
      simp [startCallsBars, List.filterMap_cons, subInstrumentArg, ih]

theorem fmBars_quote (bts : List String) :
    (startCallsBars bts).filterMap subQuoteArg = [] := by
  induction bts with
  | nil => rfl
  | cons bt rest ih =>
      simp [startCallsBars, List.filterMap_cons, subQuoteArg, ih]

theorem fmBars_trade (bts : List String) :
    (startCallsBars bts).filterMap subTradeArg = [] := by
  induction bts with
  | nil => rfl
  | cons bt rest ih =>
      simp [startCallsBars, List.filterMap_cons, subTradeArg, ih]

theorem fmBars_deltas (bts : List String) :
    (startCallsBars bts).filterMap subDeltasArg = [] := by
  induction bts with
  | nil => rfl
  | cons bt rest ih =>
      simp [startCallsBars, List.filterMap_cons, subDeltasArg, ih]

theorem fmBars_bars (bts : List String) :
    (startCallsBars bts).filterMap subBarsArg = bts := by
  induction bts with
  | nil => rfl
  | cons bt rest ih =>
      simp [startCallsBars, List.filterMap_cons, subBarsArg, ih]

theorem resolveIds_handles {α : Type} (parse : String → Option α)
    (raws : List String) :
    (resolveIds parse raws).1 = raws.filterMap parse := by
  induction raws with
  | nil => rfl
  | cons raw rest ih =>
      cases h : parse raw <;>
        simp [resolveIds, List.filterMap_cons, h, ih]

theorem resolveIds_logs {α : Type} (parse : String → Option α)
    (raws : List String) :
    (resolveIds parse raws).2 =
      (raws.filter (fun s => (parse s).isNone)).map LogRecord.parseError := by
  induction raws with
  | nil => rfl
  | cons raw rest ih =>
      cases h : parse raw <;>
        simp [resolveIds, List.filter_cons, h, ih]

theorem resolveIds_length_le {α : Type} (parse : String → Option α)
    (raws : List String) :
    (resolveIds parse raws).1.length ≤ raws.length := by
  induction raws with
  | nil => simp [resolveIds]
  | cons raw rest ih =>
      cases h : parse raw <;> simp [resolveIds, h] <;> omega

/-- The 265-event scenario of the spec: 250 quote ticks for instrument X
followed by 15 trade ticks for X, starting from fresh (zero) counters. -/
def scenarioTrace : List MarketEvent :=
  List.replicate 250 (.quote ⟨"X", 1, 2⟩) ++
    List.replicate 15 (.trade ⟨"X", 3, 4⟩)

/-- A streamer state with one bar counter entry, used as a concrete input
for the status-report theorems. -/
def statusWitnessState : StreamerState :=
  { freshState with bar_counts := [("BT", 4)] }

set_option maxRecDepth 40000

/-- C1 (counterexample): on a failing catalog write, `on_quote_tick`
emits no log record at all (in particular nothing like `WriteFailed`) and
the exception propagates out of the handler (`raised = true`), because the
write call has no try/except — contradicting the claim that the failure
is logged as WriteFailed and does not crash the router. -/
theorem write_failure_raises_unlogged :
    (on_quote_tick false freshState ⟨"X", 1, 2⟩).raised = true ∧
    (on_quote_tick false freshState ⟨"X", 1, 2⟩).logs = [] := by
  decide

/-- C1 (amended): count-then-forward is not undone by a write failure —
whatever the write outcome, `on_quote_tick` increments `quote_count` by
one and leaves every other committed counter unchanged, and symmetrically
for `on_trade_tick`; the single append write is attempted in both cases;
but the handler itself does not recover from a failed write: it raises
exactly when the write fails, emitting no WriteFailed log. -/
theorem count_then_forward_not_undone (writeOk : Bool) (s : StreamerState)
    (qt : QuoteTick) (tt : TradeTick) :
    (on_quote_tick writeOk s qt).state.quote_count = s.quote_count + 1 ∧
    (on_quote_tick writeOk s qt).state.trade_count = s.trade_count ∧
    (on_quote_tick writeOk s qt).state.deltas_count = s.deltas_count ∧
    (on_quote_tick writeOk s qt).state.bar_counts = s.bar_counts ∧
    (on_quote_tick writeOk s qt).writes = [⟨[.quote qt], some .APPEND⟩] ∧
    (on_quote_tick writeOk s qt).raised = !writeOk ∧
    (on_trade_tick writeOk s tt).state.trade_count = s.trade_count + 1 ∧
    (on_trade_tick writeOk s tt).state.quote_count = s.quote_count ∧
    (on_trade_tick writeOk s tt).state.deltas_count = s.deltas_count ∧
    (on_trade_tick writeOk s tt).state.bar_counts = s.bar_counts ∧
    (on_trade_tick writeOk s tt).writes = [⟨[.trade tt], some .APPEND⟩] ∧
    (on_trade_tick writeOk s tt).raised = !writeOk := by
  simp [on_quote_tick, on_trade_tick]

/-- C2 (counterexample): the quote counter is not keyed by instrument —
after one quote for instrument A interleaved before a single quote for
instrument B, the router's quote counter reads 2, not the 1 the claim
requires for the (quote, B) entry. -/
theorem quote_counter_not_per_key :
    (routeAll freshState
        [.quote ⟨"A", 0, 0⟩, .quote ⟨"B", 0, 0⟩]).1.quote_count = 2 ∧
    (routeAll freshState
        [.quote ⟨"A", 0, 0⟩, .quote ⟨"B", 0, 0⟩]).1.quote_count ≠ 1 := by
  decide

/-- C2 (amended): the quote, trade and book-delta counters are keyed by
category only and count every event of their category across all
instruments, unaffected by interleaving with other categories; only the
bar counters are keyed (by bar-type string), and each bar counter grows
by exactly the number of bars of its type in the routed sequence. -/
theorem counters_per_category (s : StreamerState)
    (trace : List MarketEvent) (k : String) :
    (routeAll s trace).1.quote_count =
      s.quote_count + trace.countP isQuoteEvent ∧
    (routeAll s trace).1.trade_count =
      s.trade_count + trace.countP isTradeEvent ∧
    (routeAll s trace).1.deltas_count =
      s.deltas_count + trace.countP isDeltasEvent ∧
    dictGetD (routeAll s trace).1.bar_counts k =
      dictGetD s.bar_counts k + trace.countP (isBarOfType k) :=
  ⟨routeAll_quote_count trace s, routeAll_trade_count trace s,
    routeAll_deltas_count trace s, routeAll_bar_count trace s k⟩

/-- C3 (counterexample): the status report does not contain the
book-delta counter — two states that differ only in `deltas_count`
(5 versus 7) produce byte-identical reports, which is impossible if the
report included that counter. -/
theorem status_report_ignores_deltas_count :
    (log_status { freshState with deltas_count := 5 } 0 (.ok [])).2 =
      (log_status { freshState with deltas_count := 7 } 0 (.ok [])).2 ∧
    ({ freshState with deltas_count := 5 } : StreamerState) ≠
      { freshState with deltas_count := 7 } := by
  decide

/-- C3 (amended): the status report contains the quote total, the trade
total, one line per `bar_counts` entry, and the catalog inventory (the
data-type list on success, an error record on failure) — but not the
book-delta counter, which `_log_status` never reads. -/
theorem status_report_contents (s : StreamerState) (now : Nat)
    (inv : Except Unit (List String)) :
    LogRecord.statusQuoteTotal s.quote_count ∈ (log_status s now inv).2 ∧
    LogRecord.statusTradeTotal s.trade_count ∈ (log_status s now inv).2 ∧
    (∀ kv, kv ∈ s.bar_counts →
      LogRecord.statusBarTotal kv.1 kv.2 ∈ (log_status s now inv).2) ∧
    (∀ types, inv = .ok types →
      LogRecord.statusDataTypes types ∈ (log_status s now inv).2) ∧
    (inv = .error () →
      LogRecord.statusInventoryError ∈ (log_status s now inv).2) := by
  refine ⟨?_, ?_, ?_, ?_, ?_⟩
  · simp [log_status]
  · simp [log_status]
  · intro kv hkv
    have hmem : LogRecord.statusBarTotal kv.1 kv.2 ∈
        s.bar_counts.map (fun p => LogRecord.statusBarTotal p.1 p.2) :=
      List.mem_map_of_mem _ hkv
    simp only [log_status, List.mem_cons, List.mem_append]
    exact Or.inr (Or.inr (Or.inr (Or.inl hmem)))
  · intro types hinv
    subst hinv
    simp [log_status]
  · intro hinv
    subst hinv
    simp [log_status]

/-- C3 (witness): the report-contents theorem applied at a concrete
state with one bar entry, once with a successful inventory query and once
with a failing one. -/
theorem status_report_contents_witness :
    LogRecord.statusBarTotal "BT" 4 ∈
      (log_status statusWitnessState 3 (.ok ["QuoteTick"])).2 ∧
    LogRecord.statusInventoryError ∈
      (log_status statusWitnessState 3 (.error ())).2 :=
  ⟨(status_report_contents statusWitnessState 3
      (.ok ["QuoteTick"])).2.2.1 ("BT", 4) (by decide),
    (status_report_contents statusWitnessState 3
      (.error ())).2.2.2.2 rfl⟩

/-- C4 (counterexample): the instrument-metadata subscription activated
by `on_start` is still active after `on_stop` runs — `on_stop` issues no
`unsubscribe` for instrument metadata, so not every previously Active
entry transitions to Unsubscribed. -/
theorem instrument_sub_survives_stop :
    SubKey.instrument "X" ∈ activeAfterStart ["X"] [] ∧
    SubKey.instrument "X" ∈ applyStop ["X"] [] (activeAfterStart ["X"] []) := by
  decide

/-- C4 (amended): `on_stop` unsubscribes exactly the quote, trade,
book-delta and bar subscriptions — after start-then-stop the active
roster is precisely the instrument-metadata entries, which are never
unsubscribed; running `on_stop` a second time is a no-op on the active
roster. -/
theorem stop_unsubscribes_streams (ids bts : List String) :
    applyStop ids bts (activeAfterStart ids bts) =
      ids.map SubKey.instrument ∧
    applyStop ids bts (applyStop ids bts (activeAfterStart ids bts)) =
      applyStop ids bts (activeAfterStart ids bts) := by
  constructor
  · simp only [applyStop, activeAfterStart, on_start_calls,
      List.map_append, List.filter_append]
    rw [stop_removes_startIds ids bts ids (fun _ h => h),
      stop_removes_startBars ids bts bts (fun _ h => h), List.append_nil]
  · simp only [applyStop]
    exact filter_idem _ _

/-- C5 (counterexample): the subscribe calls of `on_start` are not
independent — when the quote subscribe for instrument A fails, `on_start`
raises and the trade subscribe for A (and every call for instrument B) is
never issued. -/
theorem failed_subscribe_aborts_start :
    (issueCalls (fun c => decide (c = SubCall.quoteTicks "A"))
        (on_start_calls ["A", "B"] [])).2 = true ∧
    SubCall.tradeTicks "A" ∉
      (issueCalls (fun c => decide (c = SubCall.quoteTicks "A"))
        (on_start_calls ["A", "B"] [])).1 ∧
    SubCall.quoteTicks "B" ∉
      (issueCalls (fun c => decide (c = SubCall.quoteTicks "A"))
        (on_start_calls ["A", "B"] [])).1 := by
  decide

/-- C5 (amended): when every subscribe call succeeds, `on_start` issues,
in order, for each resolved instrument the instrument-metadata, quote,
trade and book-delta subscribes — the book-delta subscribe always with
book type L2_MBP and depth 0 (full depth) — and one bar subscribe per
resolved bar type, with no exception; the calls are not independent: a
failing call aborts the remainder (see the counterexample). -/
theorem start_issues_all_subscribes (ids bts : List String) :
    issueCalls (fun _ => false) (on_start_calls ids bts) =
      (on_start_calls ids bts, false) ∧
    (on_start_calls ids bts).filterMap subInstrumentArg = ids ∧
    (on_start_calls ids bts).filterMap subQuoteArg = ids ∧
    (on_start_calls ids bts).filterMap subTradeArg = ids ∧
    (on_start_calls ids bts).filterMap subDeltasArg =
      ids.map (fun id => (id, BookType.L2_MBP, 0)) ∧
    (on_start_calls ids bts).filterMap subBarsArg = bts := by
  refine ⟨issueCalls_all_ok _, ?_, ?_, ?_, ?_, ?_⟩ <;>
    simp [on_start_calls, List.filterMap_append, fmIds_inst, fmIds_quote,
      fmIds_trade, fmIds_deltas, fmIds_bars, fmBars_inst, fmBars_quote,
      fmBars_trade, fmBars_deltas, fmBars_bars]

/-- C6: for the scenario of 250 quotes then 15 trades on instrument X
from fresh counters, the final counters are quotes = 250 and trades = 15;
the full log output is exactly the two quote-sampled records (at counts
100 and 200) followed by the one trade-sampled record (at count 10); and
the catalog receives exactly one single-element append-mode write per
event, 265 in all, in delivery order. The cadence conjuncts for the
other categories: 100 book-delta events emit exactly one sampled record
(at count 100), and bars are logged on every event. -/
theorem scenario_250_quotes_15_trades :
    (routeAll freshState scenarioTrace).1.quote_count = 250 ∧
    (routeAll freshState scenarioTrace).1.trade_count = 15 ∧
    (routeAll freshState scenarioTrace).2.1 =
      [.quoteLog 100 "X" 1 2, .quoteLog 200 "X" 1 2,
        .tradeLog 10 "X" 3 4] ∧
    (routeAll freshState scenarioTrace).2.2 =
      scenarioTrace.map (fun e => WriteCall.mk [e] (some .APPEND)) ∧
    (routeAll freshState scenarioTrace).2.2.length = 265 ∧
    (routeAll freshState
        (List.replicate 100 (.deltas ⟨"X"⟩))).2.1 =
      [.deltasLog 100 "X"] ∧
    (routeAll freshState
        [.bar ⟨⟨"BT"⟩, 1, 2, 3, 4, 5⟩, .bar ⟨⟨"BT"⟩, 1, 2, 3, 4, 5⟩]).2.1 =
      [.barLog 1 "BT" 1 2 3 4 5, .barLog 2 "BT" 1 2 3 4 5] := by
  decide

/-- C7: every routed event is forwarded as a single-element batch, with
an explicit APPEND mode for quote, trade, book-delta and bar events, and
with the mode argument omitted (the write API's default
overwrite-or-insert mode) for instrument metadata — exactly the
per-category mode assignment the spec prescribes (`specWriteMode`). -/
theorem writes_single_element_batches (writeOk : Bool) (s : StreamerState)
    (e : MarketEvent) :
    (route writeOk s e).writes = [⟨[e], specWriteMode e⟩] := by
  cases e <;>
    simp [route, on_quote_tick, on_trade_tick, on_order_book_deltas,
      on_bar, on_instrument, specWriteMode]

/-- C8: for any parse function and any mix of valid and invalid raw
identifier strings, the resolver loop returns exactly the
successfully-parsed subset in original relative order (a stable filter,
`filterMap`), logs one parse-error record per failing entry (in order),
and the number of skipped entries equals the total input count minus the
count of returned handles. -/
theorem resolver_stable_filter {α : Type} (parse : String → Option α)
    (raws : List String) :
    (resolveIds parse raws).1 = raws.filterMap parse ∧
    (resolveIds parse raws).2 =
      (raws.filter (fun s => (parse s).isNone)).map LogRecord.parseError ∧
    (resolveIds parse raws).2.length =
      raws.length - (resolveIds parse raws).1.length := by
  refine ⟨resolveIds_handles parse raws, resolveIds_logs parse raws, ?_⟩
  induction raws with
  | nil => rfl
  | cons raw rest ih =>
      have hle := resolveIds_length_le parse rest
      cases h : parse raw <;> simp [resolveIds, h] <;> omega

/-- C9 (counterexample): two status reports over the same counter state
and the same inventory, taken at different wall-clock times, are not
identical — the report's header embeds the current time, so the report
content is not a function of the counter state and inventory alone. -/
theorem status_report_time_dependent :
    (log_status freshState 0 (.ok [])).2 ≠
      (log_status freshState 1 (.ok [])).2 := by
  decide

/-- C9 (amended): `_log_status` is read-only — it returns the streamer
state unchanged — and apart from the timestamp header its report is a
deterministic function of the counter state and the inventory result:
the non-header lines are identical across any two invocation times. -/
theorem status_read_only_deterministic (s : StreamerState) (t1 t2 : Nat)
    (inv : Except Unit (List String)) :
    (log_status s t1 inv).1 = s ∧
    (log_status s t1 inv).2.filter nonHeader =
      (log_status s t2 inv).2.filter nonHeader := by
  constructor
  · rfl
  · simp [log_status, nonHeader, List.filter_cons]

/-- C10: a bar whose bar-type string has no entry in `bar_counts` does
not make `on_bar` raise — the `get(key, 0) + 1` idiom creates the entry
at 1, the bar is logged with count 1, and the bar is still written to the
catalog as a single-element append-mode batch. -/
theorem on_bar_fresh_key_safe (s : StreamerState) (b : Bar)
    (h : dictGet s.bar_counts b.bar_type.toStr = none) :
    dictGetD (on_bar true s b).state.bar_counts b.bar_type.toStr = 1 ∧
    (on_bar true s b).logs =
      [.barLog 1 b.bar_type.toStr b.openP b.highP b.lowP b.closeP
        b.volume] ∧
    (on_bar true s b).writes = [⟨[.bar b], some .APPEND⟩] ∧
    (on_bar true s b).raised = false := by
  simp [on_bar, dictGetD, h, dictGet_dictSet_same]

/-- C10 (witness): the fresh-key theorem applied at the empty counter
table and a concrete bar. -/
theorem on_bar_fresh_key_safe_witness :
    dictGet freshState.bar_counts
      (Bar.mk ⟨"BT"⟩ 1 2 3 4 5).bar_type.toStr = none ∧
    dictGetD (on_bar true freshState
      (Bar.mk ⟨"BT"⟩ 1 2 3 4 5)).state.bar_counts "BT" = 1 :=
  ⟨by decide,
    (on_bar_fresh_key_safe freshState (Bar.mk ⟨"BT"⟩ 1 2 3 4 5)
      (by decide)).1⟩

end DataCollector
